import Mathlib

/-!
Shallow embedding of the two algorithmic components of the secure-field demo
repository: the pattern-based input sanitizer (`sanitizeInput` together with
the static list `DANGEROUS_PATTERNS`) and the rate-limiting window tracker
(`handleRequest` and the one-second countdown effect, modelled as `tick`).

Text is modelled as `List Char`.  The JavaScript regular expressions in the
source are embedded as an explicit backtracking matcher (`matchR`) over a
small regex syntax, following JavaScript semantics: alternation is
left-biased, `*` is greedy and `*?` is lazy, matching is leftmost, and the
`i` flag compares characters after `toLower`.  Replacement (`replaceAll`)
follows `String.prototype.replace` with a global regex: repeatedly replace
the leftmost match and continue after its end.
-/

/-- The character classes occurring in the source patterns:
`\w`, `\s`, `\d`, `.` (dot, not matching line terminators) and `[\s\S]`. -/
inductive CharClass where
  | word
  | space
  | digit
  | dot
  | anyCh
deriving DecidableEq

/-- JavaScript whitespace (`\s`). -/
def isJsSpace (c : Char) : Bool :=
  c = ' ' || (9 ≤ c.toNat && c.toNat ≤ 13) || c.toNat = 0xA0 || c.toNat = 0x1680 ||
  (0x2000 ≤ c.toNat && c.toNat ≤ 0x200A) || c.toNat = 0x2028 || c.toNat = 0x2029 ||
  c.toNat = 0x202F || c.toNat = 0x205F || c.toNat = 0x3000 || c.toNat = 0xFEFF

/-- JavaScript word characters (`\w`): ASCII letters, digits and underscore. -/
def isJsWord (c : Char) : Bool :=
  (('a' ≤ c && c ≤ 'z') || ('A' ≤ c && c ≤ 'Z') || ('0' ≤ c && c ≤ '9') || c = '_')

/-- Which characters a class accepts. `dot` excludes the four JavaScript
line terminators; `anyCh` (the `[\s\S]` idiom) accepts everything. -/
def CharClass.accepts : CharClass → Char → Bool
  | .word, c => isJsWord c
  | .space, c => isJsSpace c
  | .digit, c => '0' ≤ c && c ≤ '9'
  | .dot, c => !(c.toNat = 10 || c.toNat = 13 || c.toNat = 0x2028 || c.toNat = 0x2029)
  | .anyCh, _ => true

/-- Regex syntax sufficient for the eight source patterns.  `lit c ci` is a
literal character, compared case-insensitively when `ci = true` (the `i`
flag); `star r lz` is `r*` when `lz = false` and the lazy `r*?` when
`lz = true`; `opt` is greedy `?`. -/
inductive Regex where
  | eps
  | lit (c : Char) (ci : Bool)
  | cls (cc : CharClass)
  | seq (r1 r2 : Regex)
  | alt (r1 r2 : Regex)
  | star (r : Regex) (lz : Bool)
  | opt (r : Regex)
deriving DecidableEq

/-- Literal-character comparison, honouring the case-insensitive flag. -/
def litMatch (ci : Bool) (c a : Char) : Bool :=
  if ci then a.toLower == c.toLower else a == c

/-- Node count of a regex, used to build a sufficient fuel bound. -/
def Regex.size : Regex → Nat
  | .eps => 1
  | .lit _ _ => 1
  | .cls _ => 1
  | .seq r1 r2 => r1.size + r2.size + 1
  | .alt r1 r2 => r1.size + r2.size + 1
  | .star r _ => r.size + 1
  | .opt r => r.size + 1

/-- Backtracking matcher in continuation style, with JavaScript priority
order: alternation tries the left branch first, a greedy star tries the
longer continuation first, a lazy star the shorter.  `k` receives the
suffix left after the part matched so far; the result is the first
continuation value produced in priority order.  Fuel decreases at every
node, so any fuel exceeding the length of the recursion path is enough. -/
def matchR : Nat → Regex → List Char → (List Char → Option (List Char)) → Option (List Char)
  | 0, _, _, _ => none
  | fuel + 1, r, s, k =>
    match r with
    | .eps => k s
    | .lit c ci =>
      match s with
      | [] => none
      | a :: rest => if litMatch ci c a then k rest else none
    | .cls cc =>
      match s with
      | [] => none
      | a :: rest => if cc.accepts a then k rest else none
    | .seq r1 r2 => matchR fuel r1 s (fun s1 => matchR fuel r2 s1 k)
    | .alt r1 r2 =>
      match matchR fuel r1 s k with
      | some res => some res
      | none => matchR fuel r2 s k
    | .star r1 lz =>
      if lz then
        match k s with
        | some res => some res
        | none => matchR fuel r1 s (fun s1 => matchR fuel (.star r1 lz) s1 k)
      else
        match matchR fuel r1 s (fun s1 => matchR fuel (.star r1 lz) s1 k) with
        | some res => some res
        | none => k s
    | .opt r1 =>
      match matchR fuel r1 s k with
      | some res => some res
      | none => k s

/-- Try to match `r` at the start of `s`; on success return the unmatched
suffix.  The fuel bound dominates any recursion path for the source
patterns (whose repetition bodies all consume at least one character). -/
def matchHere (r : Regex) (s : List Char) : Option (List Char) :=
  matchR ((s.length + 1) * (r.size + 1) + 1) r s some

/-- Leftmost match: scan positions left to right; on success return the
text before the match, the matched text, and the text after it. -/
def findSplit (r : Regex) (s : List Char) : Option (List Char × List Char × List Char) :=
  match matchHere r s with
  | some rest => some ([], s.take (s.length - rest.length), rest)
  | none =>
    match s with
    | [] => none
    | c :: t =>
      match findSplit r t with
      | some (pre, m, rest) => some (c :: pre, m, rest)
      | none => none

/-- `regex.test(s)`: does `r` match anywhere in `s`? -/
def testR (r : Regex) (s : List Char) : Bool :=
  (findSplit r s).isSome

/-- Replace every match of `r` in `s` by `repl`, scanning left to right and
continuing after each replaced match; an empty match advances one
character, as `String.prototype.replace` does with a global regex. -/
def replaceAllAux : Nat → Regex → List Char → List Char → List Char
  | 0, _, _, s => s
  | fuel + 1, r, repl, s =>
    match findSplit r s with
    | none => s
    | some (pre, m, rest) =>
      match m with
      | [] =>
        match rest with
        | [] => pre ++ repl
        | c :: rest2 => pre ++ repl ++ c :: replaceAllAux fuel r repl rest2
      | _ :: _ => pre ++ repl ++ replaceAllAux fuel r repl rest

/-- `s.replace(r, repl)` for a global regex `r`. -/
def replaceAll (r : Regex) (repl s : List Char) : List Char :=
  replaceAllAux (s.length + 1) r repl s

/-- Sequence a list of regexes. -/
def seqs : List Regex → Regex
  | [] => .eps
  | [r] => r
  | r :: rs => .seq r (seqs rs)

/-- A literal string, each character compared with flag `ci`. -/
def strLit (ci : Bool) (cs : List Char) : Regex :=
  seqs (cs.map (fun c => Regex.lit c ci))

/-- The apostrophe character. -/
def aposCh : Char := Char.ofNat 39

/-- The double-quote character. -/
def quoteCh : Char := Char.ofNat 34

/-- `r+` as `r r*` (greedy). -/
def plusR (r : Regex) : Regex := .seq r (.star r false)

/-- The pattern `/<script[\s\S]*?>[\s\S]*?<\/script>/gi`. -/
def reScriptTag : Regex :=
  seqs [strLit true "<script".data, .star (.cls .anyCh) true, .lit '>' true,
        .star (.cls .anyCh) true, strLit true "</script>".data]

/-- The pattern `/javascript:/gi`. -/
def reJsUri : Regex := strLit true "javascript:".data

/-- The pattern `/on\w+\s*=/gi`. -/
def reEventHandler : Regex :=
  seqs [strLit true "on".data, plusR (.cls .word), .star (.cls .space) false, .lit '=' true]

/-- The pattern `/'\s*(or|and)\s*'?\d*'?\s*=\s*'?\d*'?/gi`. -/
def reSqlInjection : Regex :=
  seqs [.lit aposCh true, .star (.cls .space) false,
        .alt (strLit true "or".data) (strLit true "and".data),
        .star (.cls .space) false, .opt (.lit aposCh true), .star (.cls .digit) false,
        .opt (.lit aposCh true), .star (.cls .space) false, .lit '=' true,
        .star (.cls .space) false, .opt (.lit aposCh true), .star (.cls .digit) false,
        .opt (.lit aposCh true)]

/-- The pattern `/;\s*(rm|cat|ls|wget|curl)/gi`. -/
def reCmdInjection : Regex :=
  seqs [.lit ';' true, .star (.cls .space) false,
        .alt (strLit true "rm".data)
          (.alt (strLit true "cat".data)
            (.alt (strLit true "ls".data)
              (.alt (strLit true "wget".data) (strLit true "curl".data))))]

/-- The pattern `/\.\.\//g`. -/
def rePathTraversal : Regex := strLit false "../".data

/-- The pattern `/<iframe/gi`. -/
def reIframe : Regex := strLit true "<iframe".data

/-- The pattern `/<img.*onerror/gi`. -/
def reImgXss : Regex :=
  seqs [strLit true "<img".data, .star (.cls .dot) false, strLit true "onerror".data]

/-- One entry of the static pattern list: matcher, label and severity. -/
structure ThreatPattern where
  pattern : Regex
  name : String
  severity : String
deriving DecidableEq

/-- The static ordered pattern list `DANGEROUS_PATTERNS` of the source. -/
def DANGEROUS_PATTERNS : List ThreatPattern :=
  [⟨reScriptTag, "XSS Script Tag", "critical"⟩,
   ⟨reJsUri, "JavaScript URI", "critical"⟩,
   ⟨reEventHandler, "Event Handler", "high"⟩,
   ⟨reSqlInjection, "SQL Injection", "critical"⟩,
   ⟨reCmdInjection, "Command Injection", "critical"⟩,
   ⟨rePathTraversal, "Path Traversal", "high"⟩,
   ⟨reIframe, "Iframe Injection", "high"⟩,
   ⟨reImgXss, "Image XSS", "high"⟩]

/-- The fixed placeholder token substituted for matched content. -/
def BLOCKED : List Char := "[BLOCKED]".data

/-- The `for (const { pattern, name } of DANGEROUS_PATTERNS)` loop of
`sanitizeInput`: each pattern is tested against the original `input`
(appending its label on success) and unconditionally replace-all'ed in the
working copy `sanitized`. -/
def sanitizeLoop (input : List Char) :
    List ThreatPattern → List Char → List String → List Char × List String
  | [], sanitized, threats => (sanitized, threats)
  | p :: ps, sanitized, threats =>
    sanitizeLoop input ps (replaceAll p.pattern BLOCKED sanitized)
      (if testR p.pattern input then threats ++ [p.name] else threats)

/-- The final HTML entity encoding pass: the four chained single-character
global replaces of the source, applied in source order. -/
def htmlEscape (s : List Char) : List Char :=
  replaceAll (.lit aposCh false) "&#x27;".data
    (replaceAll (.lit quoteCh false) "&quot;".data
      (replaceAll (.lit '>' false) "&gt;".data
        (replaceAll (.lit '<' false) "&lt;".data s)))

/-- `sanitizeInput`: run the pattern loop on the input, then HTML-escape
the working copy; returns `(sanitized, threats)`. -/
def sanitizeInput (input : List Char) : List Char × List String :=
  let res := sanitizeLoop input DANGEROUS_PATTERNS input []
  (htmlEscape res.1, res.2)

/-! ### Rate-limiting window tracker

The component keeps three pieces of state: the request counter
(`requests`, the spec's `count`), the `blocked` flag and the countdown
(`timeToReset`, the spec's `secondsRemaining`).  `handleRequest` is the
spec's `record_event`; the one-second interval callback that runs while
`blocked && timeToReset > 0` is the spec's `tick`. -/

/-- The rate-limit threshold `MAX_REQUESTS`. -/
def MAX_REQUESTS : Nat := 10

/-- The reset window `RESET_TIME`, in seconds. -/
def RESET_TIME : Nat := 30

/-- The mutable state of the rate-limiting simulator. -/
structure RateWindowState where
  requests : Nat
  blocked : Bool
  timeToReset : Nat
deriving DecidableEq

/-- The initial state: `requests = 0`, `blocked = false`, `timeToReset = 0`. -/
def initState : RateWindowState := ⟨0, false, 0⟩

/-- `handleRequest` (the spec's `record_event`): a blocked request is a
no-op on the state; otherwise the counter is incremented, and on reaching
`MAX_REQUESTS` the tracker blocks and arms the countdown. -/
def handleRequest (s : RateWindowState) : RateWindowState :=
  if s.blocked then s
  else
    let newCount := s.requests + 1
    if MAX_REQUESTS ≤ newCount then ⟨newCount, true, RESET_TIME⟩
    else ⟨newCount, s.blocked, s.timeToReset⟩

/-- One firing of the interval callback (the spec's `tick`).  The interval
only exists while `blocked && timeToReset > 0`; the callback maps a
remaining time of at most 1 to zero, unblocking and clearing the counter,
and otherwise just decrements. -/
def tick (s : RateWindowState) : RateWindowState :=
  if s.blocked ∧ 0 < s.timeToReset then
    if s.timeToReset ≤ 1 then ⟨0, false, 0⟩
    else ⟨s.requests, s.blocked, s.timeToReset - 1⟩
  else s

/-- The two operations the tracker state reacts to. -/
inductive Op where
  | record
  | tick
deriving DecidableEq

/-- Apply one operation. -/
def stepOp (s : RateWindowState) : Op → RateWindowState
  | .record => handleRequest s
  | .tick => tick s

/-- Run a sequence of operations from the initial state; `runOps ops` is
exactly the set of reachable tracker states as `ops` ranges over lists. -/
def runOps (ops : List Op) : RateWindowState :=
  ops.foldl stepOp initState

/-- `n` record events in a row (no interleaved tick) from the start. -/
def recN : Nat → RateWindowState
  | 0 => initState
  | n + 1 => handleRequest (recN n)

/-- `n` consecutive ticks from `s`. -/
def tickN : Nat → RateWindowState → RateWindowState
  | 0, s => s
  | n + 1, s => tickN n (tick s)

/-- The inductive invariant of the tracker: `blocked` exactly when the
countdown is positive, a blocked tracker holds exactly `MAX_REQUESTS`
recorded events, an unblocked one strictly fewer, and the countdown never
exceeds `RESET_TIME`. -/
def RateInv (s : RateWindowState) : Prop :=
  (s.blocked = true ↔ 0 < s.timeToReset) ∧
  (s.blocked = true → s.requests = MAX_REQUESTS) ∧
  (s.blocked = false → s.requests < MAX_REQUESTS) ∧
  s.timeToReset ≤ RESET_TIME

instance (s : RateWindowState) : Decidable (RateInv s) := by
  unfold RateInv; infer_instance

/-! ### Invariant preservation for the tracker -/

lemma rateInv_init : RateInv initState := by decide

lemma rateInv_handleRequest (s : RateWindowState) (h : RateInv s) :
    RateInv (handleRequest s) := by
  obtain ⟨h1, h2, h3, h4⟩ := h
  unfold RateInv handleRequest MAX_REQUESTS RESET_TIME at *
  cases hb : s.blocked <;> simp [hb] at h1 h2 h3 ⊢
  · split <;> simp_all <;> omega
  · exact ⟨h1, h2, h4⟩

lemma rateInv_tick (s : RateWindowState) (h : RateInv s) : RateInv (tick s) := by
  obtain ⟨h1, h2, h3, h4⟩ := h
  unfold RateInv tick MAX_REQUESTS RESET_TIME at *
  cases hb : s.blocked <;> simp [hb] at h1 h2 h3 ⊢
  · exact ⟨h1, h3, h4⟩
  · by_cases hle : s.timeToReset ≤ 1 <;> simp [h1, hle, h2]
    omega

lemma rateInv_stepOp (s : RateWindowState) (op : Op) (h : RateInv s) :
    RateInv (stepOp s op) := by
  cases op
  · exact rateInv_handleRequest s h
  · exact rateInv_tick s h

lemma rateInv_foldl : ∀ (ops : List Op) (s : RateWindowState), RateInv s →
    RateInv (List.foldl stepOp s ops)
  | [], _, h => h
  | op :: ops, s, h => rateInv_foldl ops (stepOp s op) (rateInv_stepOp s op h)

lemma rateInv_runOps (ops : List Op) : RateInv (runOps ops) :=
  rateInv_foldl ops initState rateInv_init

/-- Ticking the rest state does nothing. -/
lemma tickN_initFix : ∀ n : Nat, tickN n ⟨0, false, 0⟩ = ⟨0, false, 0⟩
  | 0 => rfl
  | n + 1 => by
    simpa [tickN, tick] using tickN_initFix n

/-- From any blocked state whose countdown is positive and at most `n`,
`n` consecutive ticks land on the rest state. -/
lemma tickN_unblock : ∀ (n c t : Nat), 0 < t → t ≤ n →
    tickN n ⟨c, true, t⟩ = ⟨0, false, 0⟩
  | 0, _, _, ht, hn => absurd (Nat.lt_of_lt_of_le ht hn) (Nat.lt_irrefl 0)
  | n + 1, c, t, ht, hn => by
    by_cases h1 : t ≤ 1
    · have : t = 1 := Nat.le_antisymm h1 ht
      subst this
      simpa [tickN, tick] using tickN_initFix n
    · have h2 : 2 ≤ t := by omega
      have := tickN_unblock n c (t - 1) (by omega) (by omega)
      simpa [tickN, tick, ht, h1, Nat.lt_irrefl] using this

/-- C2: in every state reachable from the initial state by `record_event`
(`handleRequest`) and `tick` operations, `blocked` holds exactly when
`secondsRemaining` (`timeToReset`) is positive, and the counter is reset
to zero (changes from nonzero to zero) at exactly those transitions where
`blocked` changes from true to false. -/
theorem rate_blocked_iff_countdown (ops : List Op) :
    ((runOps ops).blocked = true ↔ 0 < (runOps ops).timeToReset) ∧
    (∀ op : Op,
      (((stepOp (runOps ops) op).requests = 0 ∧ (runOps ops).requests ≠ 0) ↔
        ((runOps ops).blocked = true ∧ (stepOp (runOps ops) op).blocked = false))) := by
  obtain ⟨h1, h2, h3, h4⟩ := rateInv_runOps ops
  refine ⟨h1, fun op => ?_⟩
  cases op
  · simp only [stepOp]
    unfold handleRequest
    cases hb : (runOps ops).blocked <;> simp [hb]
    split <;> simp
  · simp only [stepOp]
    unfold tick
    cases hb : (runOps ops).blocked <;> simp [hb]
    have ht := h1.mp hb
    have hc := h2 hb
    by_cases hle : (runOps ops).timeToReset ≤ 1 <;>
      simp [ht, hle, hc, MAX_REQUESTS]

/-- C10: in every reachable state of the tracker, the counter is between 0
and `MAX_REQUESTS` (10) and the countdown is between 0 and `RESET_TIME`
(30); the lower bounds are inherent to the `Nat`-valued fields, which is
faithful since the source never drives either below zero. -/
theorem rate_state_bounds (ops : List Op) :
    (runOps ops).requests ≤ MAX_REQUESTS ∧ (runOps ops).timeToReset ≤ RESET_TIME := by
  obtain ⟨h1, h2, h3, h4⟩ := rateInv_runOps ops
  refine ⟨?_, h4⟩
  cases hb : (runOps ops).blocked
  · exact Nat.le_of_lt (h3 hb)
  · exact Nat.le_of_eq (h2 hb)

/-- C4: from the initial state, `MAX_REQUESTS` (10) record events with no
interleaved tick leave the tracker blocked with the countdown at
`RESET_TIME` (30); fewer than 10 leave it unblocked; and a record event in
a non-blocked state increments the counter by exactly one. -/
theorem record_burst_blocks :
    recN MAX_REQUESTS = ⟨MAX_REQUESTS, true, RESET_TIME⟩ ∧
    (∀ k : Nat, k < MAX_REQUESTS → (recN k).blocked = false) ∧
    (∀ s : RateWindowState, s.blocked = false →
      (handleRequest s).requests = s.requests + 1) := by
  refine ⟨by decide, by decide, fun s hb => ?_⟩
  unfold handleRequest
  simp [hb]
  split <;> rfl

/-- Witness for C4 at `k = 7` and at the concrete state `⟨3, false, 0⟩`. -/
theorem record_burst_blocks_witness :
    (recN 7).blocked = false ∧ (handleRequest ⟨3, false, 0⟩).requests = 3 + 1 :=
  ⟨record_burst_blocks.2.1 7 (by decide), record_burst_blocks.2.2 ⟨3, false, 0⟩ rfl⟩

/-- In a blocked state with a positive countdown of at most `RESET_TIME`,
each tick decrements the countdown by one; the tick that takes it to zero
also unblocks and clears the counter; and `RESET_TIME` consecutive ticks
land exactly on the rest state. -/
lemma tick_blocked_spec (s : RateWindowState) (hb : s.blocked = true)
    (ht : 0 < s.timeToReset) (hw : s.timeToReset ≤ RESET_TIME) :
    (tick s).timeToReset = s.timeToReset - 1 ∧
    ((tick s).timeToReset = 0 → (tick s).blocked = false ∧ (tick s).requests = 0) ∧
    tickN RESET_TIME s = ⟨0, false, 0⟩ := by
  obtain ⟨c, b, t⟩ := s
  simp only at hb ht hw
  subst hb
  refine ⟨?_, ?_, tickN_unblock RESET_TIME c t ht hw⟩
  · unfold tick
    by_cases hle : t ≤ 1 <;> simp [ht, hle]
  · unfold tick
    by_cases hle : t ≤ 1 <;> simp [ht, hle]
    omega

/-- C5: from any blocked state of the tracker (i.e. any reachable state
with `blocked = true`), each tick decrements `secondsRemaining` by one,
the tick that takes it to zero also sets `blocked = false` and
`count = 0`, and after exactly `RESET_TIME` (30) consecutive ticks the
tracker is in the state `blocked = false, count = 0`. -/
theorem tick_countdown_resets (ops : List Op)
    (hb : (runOps ops).blocked = true) :
    (tick (runOps ops)).timeToReset = (runOps ops).timeToReset - 1 ∧
    ((tick (runOps ops)).timeToReset = 0 →
      (tick (runOps ops)).blocked = false ∧ (tick (runOps ops)).requests = 0) ∧
    tickN RESET_TIME (runOps ops) = ⟨0, false, 0⟩ := by
  obtain ⟨h1, h2, h3, h4⟩ := rateInv_runOps ops
  exact tick_blocked_spec (runOps ops) hb (h1.mp hb) h4

/-- Witness for C5 after ten record events, a concrete blocked state. -/
theorem tick_countdown_resets_witness :
    tickN RESET_TIME (runOps (List.replicate 10 Op.record)) = ⟨0, false, 0⟩ :=
  (tick_countdown_resets (List.replicate 10 Op.record) (by decide)).2.2

/-- C6: a record event in any blocked state returns the state unchanged:
counter, flag and countdown all keep their previous values. -/
theorem record_while_blocked_noop (s : RateWindowState) (hb : s.blocked = true) :
    handleRequest s = s := by
  unfold handleRequest
  simp [hb]

/-- Witness for C6 at the concrete blocked state `⟨10, true, 30⟩`. -/
theorem record_while_blocked_noop_witness :
    handleRequest ⟨10, true, 30⟩ = ⟨10, true, 30⟩ :=
  record_while_blocked_noop ⟨10, true, 30⟩ rfl

/-! ### Structure of the sanitizer loop -/

/-- Unrolling `sanitizeLoop`: the working copy is the left fold of the
per-pattern replace-alls, and the threat list collects, in declaration
order, the labels of exactly those patterns whose test succeeds on the
original input. -/
lemma sanitizeLoop_spec (input : List Char) :
    ∀ (ps : List ThreatPattern) (san : List Char) (thr : List String),
    sanitizeLoop input ps san thr =
      (ps.foldl (fun s p => replaceAll p.pattern BLOCKED s) san,
       thr ++ (ps.filter (fun p => testR p.pattern input)).map (fun p => p.name))
  | [], san, thr => by simp [sanitizeLoop]
  | p :: ps, san, thr => by
    by_cases h : testR p.pattern input = true <;>
      simp [sanitizeLoop, h, sanitizeLoop_spec input ps, List.filter_cons]

/-- C1: `sanitizeInput` handles the static pattern list in declaration
order: the threat list is the labels of the patterns matching the original
input (each at most once), and the output text is the sequential left fold
of replace-alls over a working copy, then HTML-escaped.  The concrete
second part exhibits the sequential (not simultaneous) application: the
script-tag replacement consumes the `<iframe` occurrence, so the iframe
pattern (still reported, since tests run against the original input) finds
nothing left to replace in the working copy. -/
theorem sanitize_sequential_patterns :
    (∀ input : List Char,
      sanitizeInput input =
        (htmlEscape (DANGEROUS_PATTERNS.foldl
            (fun s p => replaceAll p.pattern BLOCKED s) input),
         (DANGEROUS_PATTERNS.filter (fun p => testR p.pattern input)).map
            (fun p => p.name))) ∧
    sanitizeInput "<script><iframe></script>".data =
      ("[BLOCKED]".data, ["XSS Script Tag", "Iframe Injection"]) := by
  constructor
  · intro input
    simp [sanitizeInput, sanitizeLoop_spec]
  · decide

/-- C8: the threat list reported by `sanitizeInput` is a subsequence of the
pattern labels in declaration order, and no label occurs twice. -/
theorem sanitize_threats_ordered_nodup (input : List Char) :
    List.Sublist (sanitizeInput input).2 (DANGEROUS_PATTERNS.map (fun p => p.name)) ∧
    (sanitizeInput input).2.Nodup := by
  have hchar : (sanitizeInput input).2 =
      (DANGEROUS_PATTERNS.filter (fun p => testR p.pattern input)).map
        (fun p => p.name) := by
    simp [sanitizeInput, sanitizeLoop_spec]
  rw [hchar]
  have hsub : List.Sublist
      ((DANGEROUS_PATTERNS.filter (fun p => testR p.pattern input)).map
        (fun p => p.name))
      (DANGEROUS_PATTERNS.map (fun p => p.name)) :=
    List.Sublist.map _ (List.filter_sublist DANGEROUS_PATTERNS)
  exact ⟨hsub, List.Nodup.sublist hsub (by decide)⟩

/-! ### Single-character replacement (the HTML-escape pass) -/

/-- Matching a single literal character at the head of the text. -/
lemma matchHere_lit (c : Char) (ci : Bool) (s : List Char) :
    matchHere (.lit c ci) s =
      match s with
      | [] => none
      | a :: rest => if litMatch ci c a then some rest else none := by
  cases s <;> rfl

/-- Leftmost-match characterisation for a single case-sensitive literal:
either the character does not occur and the search fails, or the text
splits at its first occurrence. -/
lemma findSplit_lit (c : Char) : ∀ s : List Char,
    (c ∉ s ∧ findSplit (.lit c false) s = none) ∨
    (∃ pre rest, s = pre ++ c :: rest ∧ c ∉ pre ∧
      findSplit (.lit c false) s = some (pre, [c], rest)) := by
  intro s
  induction s with
  | nil => exact Or.inl ⟨List.not_mem_nil c, rfl⟩
  | cons a t ih =>
    by_cases hac : a = c
    · subst hac
      refine Or.inr ⟨[], t, rfl, List.not_mem_nil a, ?_⟩
      rw [findSplit, matchHere_lit]
      simp [litMatch]
    · have hm : matchHere (Regex.lit c false) (a :: t) = none := by
        rw [matchHere_lit]
        simp [litMatch, hac]
      rcases ih with ⟨hn, he⟩ | ⟨pre, rest, heq, hpre, he⟩
      · refine Or.inl ⟨?_, ?_⟩
        · simp [List.mem_cons, hn]
          exact fun h => hac h.symm
        · rw [findSplit, hm, he]
      · refine Or.inr ⟨a :: pre, rest, by rw [heq]; rfl, ?_, ?_⟩
        · simp [List.mem_cons, hpre]
          exact fun h => hac h.symm
        · rw [findSplit, hm, he]

/-- If the regex finds no match, replace-all is the identity. -/
lemma replaceAll_no_match (r : Regex) (t s : List Char) (h : testR r s = false) :
    replaceAll r t s = s := by
  unfold testR at h
  cases hf : findSplit r s with
  | none => rw [replaceAll, replaceAllAux, hf]
  | some v => rw [hf] at h; simp at h

/-- A character absent from a text is not matched by its literal regex. -/
lemma testR_lit_false (c : Char) (s : List Char) (h : c ∉ s) :
    testR (.lit c false) s = false := by
  rcases findSplit_lit c s with ⟨_, he⟩ | ⟨pre, rest, heq, _, _⟩
  · rw [testR, he]; rfl
  · exact absurd (heq ▸ List.mem_append_right pre (List.mem_cons_self c rest)) h

/-- Replacing `c` by a `c`-free string removes every occurrence of `c`. -/
lemma replaceAllAux_lit_self (c : Char) (t : List Char) (hct : c ∉ t) :
    ∀ (fuel : Nat) (s : List Char), s.length < fuel →
    c ∉ replaceAllAux fuel (.lit c false) t s := by
  intro fuel
  induction fuel with
  | zero => exact fun s h => absurd h (Nat.not_lt_zero _)
  | succ n ih =>
    intro s hlen
    rcases findSplit_lit c s with ⟨hn, he⟩ | ⟨pre, rest, heq, hpre, he⟩
    · rw [replaceAllAux, he]
      exact hn
    · rw [replaceAllAux, he]
      subst heq
      have hrl : rest.length < n := by
        simp [List.length_append] at hlen
        omega
      simp [List.mem_append, hpre, hct]
      exact ih rest hrl

/-- Replacing `c` by `t` introduces no occurrence of a character `d` that
is absent from both the text and `t`. -/
lemma replaceAllAux_lit_pres (c d : Char) (t : List Char) (hdt : d ∉ t) :
    ∀ (fuel : Nat) (s : List Char), s.length < fuel → d ∉ s →
    d ∉ replaceAllAux fuel (.lit c false) t s := by
  intro fuel
  induction fuel with
  | zero => exact fun s h => absurd h (Nat.not_lt_zero _)
  | succ n ih =>
    intro s hlen hds
    rcases findSplit_lit c s with ⟨hn, he⟩ | ⟨pre, rest, heq, hpre, he⟩
    · rw [replaceAllAux, he]
      exact hds
    · rw [replaceAllAux, he]
      subst heq
      have hrl : rest.length < n := by
        simp [List.length_append] at hlen
        omega
      simp [List.mem_append, hdt] at hds ⊢
      exact ⟨hds.1, ih rest hrl hds.2.2⟩

/-- `replaceAll` versions of the two membership lemmas. -/
lemma replaceAll_lit_self (c : Char) (t s : List Char) (hct : c ∉ t) :
    c ∉ replaceAll (.lit c false) t s :=
  replaceAllAux_lit_self c t hct (s.length + 1) s (Nat.lt_succ_self _)

lemma replaceAll_lit_pres (c d : Char) (t s : List Char) (hdt : d ∉ t) (hds : d ∉ s) :
    d ∉ replaceAll (.lit c false) t s :=
  replaceAllAux_lit_pres c d t hdt (s.length + 1) s (Nat.lt_succ_self _) hds

/-- The escape pass leaves no `<`, `>`, `"` or `'` in its output. -/
lemma htmlEscape_no_specials (s : List Char) :
    '<' ∉ htmlEscape s ∧ '>' ∉ htmlEscape s ∧
    quoteCh ∉ htmlEscape s ∧ aposCh ∉ htmlEscape s := by
  unfold htmlEscape
  refine ⟨?_, ?_, ?_, ?_⟩
  · exact replaceAll_lit_pres _ _ _ _ (by decide)
      (replaceAll_lit_pres _ _ _ _ (by decide)
        (replaceAll_lit_pres _ _ _ _ (by decide)
          (replaceAll_lit_self _ _ _ (by decide))))
  · exact replaceAll_lit_pres _ _ _ _ (by decide)
      (replaceAll_lit_pres _ _ _ _ (by decide)
        (replaceAll_lit_self _ _ _ (by decide)))
  · exact replaceAll_lit_pres _ _ _ _ (by decide)
      (replaceAll_lit_self _ _ _ (by decide))
  · exact replaceAll_lit_self _ _ _ (by decide)

/-- The escape pass fixes any text free of the four escaped characters. -/
lemma htmlEscape_id (s : List Char) (h1 : '<' ∉ s) (h2 : '>' ∉ s)
    (h3 : quoteCh ∉ s) (h4 : aposCh ∉ s) : htmlEscape s = s := by
  unfold htmlEscape
  rw [replaceAll_no_match _ _ _ (testR_lit_false _ _ h1),
      replaceAll_no_match _ _ _ (testR_lit_false _ _ h2),
      replaceAll_no_match _ _ _ (testR_lit_false _ _ h3),
      replaceAll_no_match _ _ _ (testR_lit_false _ _ h4)]

/-- C9: for every input, the sanitized output contains none of the four
characters `<`, `>`, `"`, `'`: the final pass replaces every occurrence of
each, and the replacement entities reintroduce none of them. -/
theorem sanitize_output_escaped (input : List Char) :
    '<' ∉ (sanitizeInput input).1 ∧ '>' ∉ (sanitizeInput input).1 ∧
    quoteCh ∉ (sanitizeInput input).1 ∧ aposCh ∉ (sanitizeInput input).1 := by
  have h : (sanitizeInput input).1 =
      htmlEscape (DANGEROUS_PATTERNS.foldl
        (fun s p => replaceAll p.pattern BLOCKED s) input) := by
    simp [sanitizeInput, sanitizeLoop_spec]
  rw [h]
  exact htmlEscape_no_specials _

/-- Witness for C9 at a concrete input containing all four characters. -/
theorem sanitize_output_escaped_witness :
    '<' ∉ (sanitizeInput ('<' :: '>' :: quoteCh :: aposCh :: []) ).1 :=
  (sanitize_output_escaped ('<' :: '>' :: quoteCh :: aposCh :: [])).1

/-! ### Idempotence of re-sanitizing -/

/-- The input `' rm` (apostrophe, space, `rm`). -/
def aposRm : List Char := aposCh :: ' ' :: 'r' :: 'm' :: []

/-- C3 counterexample: sanitizing `' rm` matches nothing and escapes the
apostrophe to `&#x27;`, giving `&#x27; rm`; the entity's semicolon now
completes the command-injection pattern `;\s*rm`, so re-sanitizing reports
a new threat and alters the text.  This refutes the claim that a second
`sanitize` pass always returns the sanitized text unchanged with no
matches. -/
theorem sanitize_not_idempotent :
    ¬ ((sanitizeInput ((sanitizeInput aposRm).1)).2 = [] ∧
       (sanitizeInput ((sanitizeInput aposRm).1)).1 = (sanitizeInput aposRm).1) := by
  decide

/-- Folding the per-pattern replace-alls over a text none of them matches
is the identity. -/
lemma foldl_replaceAll_no_match (s : List Char) :
    ∀ ps : List ThreatPattern, (∀ p ∈ ps, testR p.pattern s = false) →
    ps.foldl (fun acc p => replaceAll p.pattern BLOCKED acc) s = s
  | [], _ => rfl
  | p :: ps, h => by
    rw [List.foldl_cons, replaceAll_no_match _ _ _ (h p (List.mem_cons_self p ps))]
    exact foldl_replaceAll_no_match s ps fun q hq => h q (List.mem_cons_of_mem p hq)

/-- C3 (amended): re-sanitizing is the identity — empty threat list and
unchanged text — for exactly those inputs whose sanitized output matches
none of the dangerous patterns.  (The unrestricted claim is refuted by
`sanitize_not_idempotent`: replacement placeholders and escape entities
can complete a fresh match, e.g. the semicolon of `&#x27;`.) -/
theorem sanitize_idempotent_of_no_rematch (input : List Char)
    (h : ∀ p ∈ DANGEROUS_PATTERNS, testR p.pattern ((sanitizeInput input).1) = false) :
    sanitizeInput ((sanitizeInput input).1) = ((sanitizeInput input).1, []) := by
  have hout : (sanitizeInput input).1 =
      htmlEscape (DANGEROUS_PATTERNS.foldl
        (fun s p => replaceAll p.pattern BLOCKED s) input) := by
    simp [sanitizeInput, sanitizeLoop_spec]
  have hspec : sanitizeInput ((sanitizeInput input).1) =
      (htmlEscape (DANGEROUS_PATTERNS.foldl
          (fun s p => replaceAll p.pattern BLOCKED s) ((sanitizeInput input).1)),
       (DANGEROUS_PATTERNS.filter
          (fun p => testR p.pattern ((sanitizeInput input).1))).map
          (fun p => p.name)) := by
    simp [sanitizeInput, sanitizeLoop_spec]
  rw [hspec, foldl_replaceAll_no_match _ _ h]
  have hfil : (DANGEROUS_PATTERNS.filter
      (fun p => testR p.pattern ((sanitizeInput input).1))) = [] := by
    rw [List.filter_eq_nil_iff]
    intro p hp
    simp [h p hp]
  have hesc := htmlEscape_no_specials (DANGEROUS_PATTERNS.foldl
    (fun s p => replaceAll p.pattern BLOCKED s) input)
  rw [hfil, hout, htmlEscape_id _ hesc.1 hesc.2.1 hesc.2.2.1 hesc.2.2.2]
  simp

/-- Witness for the amended C3 at the benign input `plain`. -/
theorem sanitize_idempotent_witness :
    sanitizeInput ((sanitizeInput "plain".data).1) =
      ((sanitizeInput "plain".data).1, []) :=
  sanitize_idempotent_of_no_rematch "plain".data (by decide)

/-- C7: the canonical XSS probe is reported under the script-tag label and
its sanitized output contains no literal `<script>` substring; the empty
string sanitizes to itself with no threats. -/
theorem sanitize_xss_probe_and_empty :
    "XSS Script Tag" ∈ (sanitizeInput "<script>alert(1)</script>".data).2 ∧
    ¬ List.IsInfix "<script>".data (sanitizeInput "<script>alert(1)</script>".data).1 ∧
    sanitizeInput ([] : List Char) = (([] : List Char), ([] : List String)) := by
  refine ⟨by decide, by decide, by decide⟩
